import Mathlib

/-!
Verification of the AuroraMind AI service (src/ai-service/main.py) against its
natural-language specification.

The Python service is shallowly embedded as pure Lean functions:

* the in-memory status map `DOCUMENTS : Dict[str, DocumentRecord]` becomes an
  association list `Docs` with Python-dict lookup/overwrite semantics;
* exceptions become `Except String` (the carried `String` is `str(exc)`);
* the filesystem, the text splitter, the embedding model and the vector store
  are external effects; they enter as explicit oracle fields of `Env`
  (ingestion) and `QueryEnv` (query path), so the embedded functions stay
  pure while following the source line by line;
* `time.time()` becomes an explicit `now : Nat` parameter;
* the side effect of `index.upsert(...)` is reified as the returned
  `Option UpsertCall` value: `some call` records exactly the vectors and the
  namespace the code hands to Pinecone, `none` means no upsert happened.
-/

instance {ε α : Type} [DecidableEq ε] [DecidableEq α] : DecidableEq (Except ε α) := fun x y =>
  match x, y with
  | .ok a, .ok b =>
      if h : a = b then isTrue (by rw [h]) else isFalse (fun he => by cases he; exact h rfl)
  | .error a, .error b =>
      if h : a = b then isTrue (by rw [h]) else isFalse (fun he => by cases he; exact h rfl)
  | .ok _, .error _ => isFalse (fun he => by cases he)
  | .error _, .ok _ => isFalse (fun he => by cases he)

/-- One decode unit of a file opened with `encoding="utf-8"`: either a byte
sequence that decodes to a character, or an undecodable byte. -/
inductive DecodeUnit where
  | ch (c : Char)
  | bad
deriving DecidableEq, Repr

/-- Decoding with `errors="ignore"` (what the source uses at
`with open(p, "r", encoding="utf-8", errors="ignore")`): undecodable bytes
are silently dropped. -/
def decodeIgnore (us : List DecodeUnit) : String :=
  String.mk (us.filterMap (fun u => match u with | .ch c => some c | .bad => none))

/-- Decoding with `errors="replace"`: every undecodable byte becomes U+FFFD.
The source does NOT use this; it is here to state what the spec's words
("silently replacing undecodable bytes") would mean. -/
def decodeReplace (us : List DecodeUnit) : String :=
  String.mk (us.map (fun u => match u with | .ch c => c | .bad => Char.ofNat 0xFFFD))

/-- Contents of one file on disk: its bytes (as decode units) plus, when the
bytes parse as a PDF, the per-page text extraction results (`None` when a
page yields no text, mirroring `page.extract_text()` returning `None`). -/
structure FileData where
  units : List DecodeUnit
  pdfPages : Option (List (Option String))
deriving DecidableEq, Repr

/-- Python `str.startswith(pre)`, the prefix test used by the middleware. -/
def pyStartsWith (pre s : String) : Bool :=
  List.isPrefixOf pre.data s.data

/-- ASCII-style lowering of a string, `str.lower()`. -/
def lowerStr (s : String) : String :=
  String.mk (s.data.map Char.toLower)

/-- Python `pathlib.PurePath(path).suffix`: the extension (with dot) of the final
path component; empty when the name has no dot, starts with its only dot,
or ends with its last dot. -/
def pySuffix (path : String) : String :=
  let name := (path.data.reverse.takeWhile (fun c => !(c == '/'))).reverse
  let afterRev := name.reverse.takeWhile (fun c => !(c == '.'))
  if afterRev.length = name.length then ""
  else
    let i := name.length - afterRev.length - 1
    if 0 < i ∧ i < name.length - 1 then String.mk (name.drop i) else ""

/-- The `extract_text(path)` function from the source.  `fs` is the filesystem oracle:
`fs path = none` means the path does not exist.

```python
def extract_text(path: str) -> str:
    p = Path(path)
    if not p.exists():
        raise FileNotFoundError(f"file not found: {path}")
    if p.suffix.lower() == ".pdf":
        reader = PdfReader(p)
        return "\n".join(page.extract_text() or "" for page in reader.pages)
    with open(p, "r", encoding="utf-8", errors="ignore") as f:
        return f.read()
```
(`fd.pdfPages = none` on the PDF branch models `PdfReader` raising on bytes
that do not parse as a PDF.) -/
def extract_text (fs : String → Option FileData) (path : String) : Except String String :=
  match fs path with
  | none => .error ("file not found: " ++ path)
  | some fd =>
    if lowerStr (pySuffix path) = ".pdf" then
      match fd.pdfPages with
      | some pages => .ok (String.intercalate "\n" (pages.map (fun pg => pg.getD "")))
      | none => .error ("invalid pdf: " ++ path)
    else
      .ok (decodeIgnore fd.units)

/-- Modelled from the spec (section 4.2 TextExtractor): the non-PDF branch as
the spec describes it — "reads the file as UTF-8 text, silently replacing
undecodable bytes".  Identical to `extract_text` except that the text branch
replaces instead of ignoring.  Used only to compare the spec's words with the
source's `errors="ignore"`. -/
def extract_text_spec_replace (fs : String → Option FileData) (path : String) :
    Except String String :=
  match fs path with
  | none => .error ("file not found: " ++ path)
  | some fd =>
    if lowerStr (pySuffix path) = ".pdf" then
      match fd.pdfPages with
      | some pages => .ok (String.intercalate "\n" (pages.map (fun pg => pg.getD "")))
      | none => .error ("invalid pdf: " ++ path)
    else
      .ok (decodeReplace fd.units)

/-- The `DocumentRecord` dataclass.  `created_at : float` from `time.time()` is
modelled as a `Nat` timestamp; the dataclass default `status = "queued"` is
kept. -/
structure DocumentRecord where
  document_id : String
  collection_id : String
  storage_uri : String
  title : String
  status : String := "queued"
  note : Option String := none
  created_at : Nat := 0
deriving DecidableEq, Repr

/-- The process-wide `DOCUMENTS` dict, as an association list in insertion
order. -/
abbrev Docs := List (String × DocumentRecord)

/-- Lookup `DOCUMENTS.get(document_id)`. -/
def getDoc : Docs → String → Option DocumentRecord
  | [], _ => none
  | (j, s) :: rest, i => if j = i then some s else getDoc rest i

/-- Assignment `DOCUMENTS[document_id] = record`, and in-place mutation of the record stored
under a key: overwrite the existing binding, or append a new one. -/
def setDoc : Docs → String → DocumentRecord → Docs
  | [], i, r => [(i, r)]
  | (j, s) :: rest, i, r => if j = i then (i, r) :: rest else (j, s) :: setDoc rest i r

/-- The exception `fastapi.HTTPException(status_code, detail)`. -/
structure HTTPError where
  status_code : Nat
  detail : String
deriving DecidableEq, Repr

/-- JSON body of `POST /internal/ingest`.  A field is `none` when the key is
absent from the payload (`field not in payload`); `title = none` also covers
a JSON `null` title, which the source treats the same via
`payload.get("title") or "Untitled"`. -/
structure IngestPayload where
  document_id : Option String
  collection_id : Option String
  storage_uri : Option String
  title : Option String
deriving DecidableEq, Repr

/-- Result of a successful `ingest` call: the updated status map, the
`document_id` echoed in the `{"status": "accepted", ...}` response, and the
argument of the scheduled `process_ingestion` background task. -/
structure IngestResult where
  docs : Docs
  response_document_id : String
  task : Option String
deriving DecidableEq, Repr

/-- The record built inside `ingest`: `status="processing"` explicitly, and
`title=payload.get("title") or "Untitled"` (so an absent, null or empty title
all become `"Untitled"`). -/
def mkIngestRecord (did cid uri : String) (title : Option String) (now : Nat) :
    DocumentRecord :=
  { document_id := did
  , collection_id := cid
  , storage_uri := uri
  , title := match title with
             | some t => if t = "" then "Untitled" else t
             | none => "Untitled"
  , status := "processing"
  , note := none
  , created_at := now }

/-- The `/internal/ingest` handler.

```python
payload = await request.json()
required = ["document_id", "collection_id", "storage_uri"]
if any(field not in payload for field in required):
    raise HTTPException(status_code=400, detail="missing required fields")
record = DocumentRecord(..., status="processing")
DOCUMENTS[record.document_id] = record
tasks.add_task(process_ingestion, record.document_id)
return {"status": "accepted", "document_id": record.document_id}
``` -/
def ingest (p : IngestPayload) (now : Nat) (docs : Docs) :
    Except HTTPError IngestResult :=
  match p.document_id, p.collection_id, p.storage_uri with
  | some did, some cid, some uri =>
      let record := mkIngestRecord did cid uri p.title now
      .ok { docs := setDoc docs did record
          , response_document_id := did
          , task := some did }
  | _, _, _ => .error { status_code := 400, detail := "missing required fields" }

/-- The status map after an `ingest` call (unchanged when the handler raised
the 400 validation error). -/
def ingestDocs (p : IngestPayload) (now : Nat) (docs : Docs) : Docs :=
  match ingest p now docs with
  | .ok res => res.docs
  | .error _ => docs

/-- The background task scheduled by an `ingest` call (`none` when the
handler raised the 400 validation error before `tasks.add_task`). -/
def ingestTask (p : IngestPayload) (now : Nat) (docs : Docs) : Option String :=
  match ingest p now docs with
  | .ok res => res.task
  | .error _ => none

/-- Metadata attached to one Pinecone vector. -/
structure VectorMeta where
  collection_id : String
  document_id : String
  chunk_id : String
  text : String
deriving DecidableEq, Repr

/-- One vector handed to `index.upsert`. -/
structure VectorRecord where
  id : String
  values : List Int
  metadata : VectorMeta
deriving DecidableEq, Repr

/-- The single `index.upsert(vectors=vectors, namespace=collection_id)` call
performed by `upsert_to_pinecone`: the vector list and the namespace. -/
structure UpsertCall where
  vectors : List VectorRecord
  ns : String
deriving DecidableEq, Repr

/-- The `for i, chunk in enumerate(chunks)` loop body of `upsert_to_pinecone`,
starting at index `i`:

```python
embedding = embeddings.embed_query(chunk)
vectors.append({
    "id": f"{doc_id}-chunk-{i}",
    "values": embedding,
    "metadata": {"collection_id": collection_id, "document_id": doc_id,
                 "chunk_id": f"chunk-{i}", "text": chunk}})
``` -/
def upsertVectors (embed : String → List Int) (collection_id doc_id : String) :
    Nat → List String → List VectorRecord
  | _, [] => []
  | i, chunk :: rest =>
      { id := doc_id ++ "-chunk-" ++ toString i
      , values := embed chunk
      , metadata :=
          { collection_id := collection_id
          , document_id := doc_id
          , chunk_id := "chunk-" ++ toString i
          , text := chunk } }
        :: upsertVectors embed collection_id doc_id (i + 1) rest

/-- The `upsert_to_pinecone(pc, chunks, collection_id, doc_id, embeddings)` function:
builds one vector per chunk (in chunk order, indices from 0) and upserts them
all into namespace `collection_id`.  `embed` is the embedding-model oracle
(`embeddings.embed_query`). -/
def upsert_to_pinecone (embed : String → List Int) (chunks : List String)
    (collection_id doc_id : String) : UpsertCall :=
  { vectors := upsertVectors embed collection_id doc_id 0 chunks
  , ns := collection_id }

/-- External world of one `process_ingestion` run:
`fs` the filesystem, `split` the behaviour of
`RecursiveCharacterTextSplitter(chunk_size=800, chunk_overlap=120).split_text`
(library code, kept abstract), `embed` the embedding model,
`openaiKey` whether `OPENAI_API_KEY` is non-empty, `pineconeKey` whether
`PINECONE_API_KEY` is set (so `get_pinecone()` returns a client),
`upsertFail = some m` when the embed/upsert network calls inside
`upsert_to_pinecone` raise an exception with message `m`. -/
structure Env where
  fs : String → Option FileData
  split : String → List String
  embed : String → List Int
  openaiKey : Bool
  pineconeKey : Bool
  upsertFail : Option String

/-- The `try` block of `process_ingestion`, for the record found under the
document id.  Returns the chunk list and the performed upsert on success, or
`str(exc)` of the first raising stage. -/
def ingestionSteps (env : Env) (record : DocumentRecord) :
    Except String (List String × UpsertCall) :=
  match extract_text env.fs record.storage_uri with
  | .error msg => .error msg
  | .ok text =>
    let chunks := env.split text
    if chunks = [] then
      .error "no text extracted"
    else if !(env.openaiKey && env.pineconeKey) then
      .error "missing OPENAI_API_KEY or PINECONE_API_KEY for ingestion"
    else
      match env.upsertFail with
      | some m => .error m
      | none =>
          .ok (chunks, upsert_to_pinecone env.embed chunks record.collection_id record.document_id)

/-- The `process_ingestion(document_id)` task: looks up the record (returning silently
when absent), runs the pipeline, and on success sets `status="ready"` with
the chunk-count note, while any exception sets `status="error"` with
`note=str(exc)`.  The second component is the upsert performed (`none` when
none happened). -/
def process_ingestion (env : Env) (docs : Docs) (document_id : String) :
    Docs × Option UpsertCall :=
  match getDoc docs document_id with
  | none => (docs, none)
  | some record =>
    match ingestionSteps env record with
    | .ok (chunks, call) =>
        (setDoc docs document_id
          { record with
              status := "ready"
            , note := some ("Upserted " ++ toString chunks.length ++ " chunks to Pinecone.") }
        , some call)
    | .error msg =>
        (setDoc docs document_id { record with status := "error", note := some msg }
        , none)

/-- The `verify_service_token` middleware.

```python
if request.url.path.startswith("/internal/") and SERVICE_TOKEN:
    token = request.headers.get("x-service-token")
    if token != SERVICE_TOKEN:
        raise HTTPException(status_code=401, detail="unauthorized")
return await call_next(request)
```
`serviceToken` is the `SERVICE_TOKEN` env value (default `""`, and an empty
string is falsy so the gate is off); `header` is
`request.headers.get("x-service-token")` (`none` when absent).  Result
`some e` means the gate raised `e`; `none` means the request passed on to
`call_next`. -/
def verify_service_token (serviceToken path : String) (header : Option String) :
    Option HTTPError :=
  if pyStartsWith "/internal/" path && !(serviceToken == "") then
    if header == some serviceToken then none
    else some { status_code := 401, detail := "unauthorized" }
  else none

/-- Whether `pat` occurs as a contiguous substring of `s`, checked position by
position (`pat in s` in Python). -/
def substrAux (pat : List Char) : List Char → Bool
  | [] => pat.isEmpty
  | c :: rest => List.isPrefixOf pat (c :: rest) || substrAux pat rest

/-- Python `pat in s` for strings. -/
def strContains (s pat : String) : Bool :=
  substrAux pat.data s.data

/-- One item of the streamed HTTP response body: the awaited
`asyncio.sleep` delay (in milliseconds) before the fragment, and the yielded
bytes (always `piece.encode("utf-8") + b"\n"` in the source, so a trailing
newline). -/
structure StreamEvent where
  delayMs : Nat
  bytes : String
deriving DecidableEq, Repr

/-- The canned fragments of the fallback path in `token_stream`:

```python
synthetic = [
    "Synthesizing an AuroraMind reply. ",
    "This stubbed AI service will echo your prompt back. ",
    f'Prompt: "{prompt}". ',
    "Connect Pinecone and OpenAI to replace this path.",
]
``` -/
def synthetic_fragments (prompt : String) : List String :=
  [ "Synthesizing an AuroraMind reply. "
  , "This stubbed AI service will echo your prompt back. "
  , "Prompt: \"" ++ prompt ++ "\". "
  , "Connect Pinecone and OpenAI to replace this path." ]

/-- The fallback loop: `await asyncio.sleep(0.12)` (120 ms) before each
fragment, each yielded with a trailing newline. -/
def fallback_stream (prompt : String) : List StreamEvent :=
  (synthetic_fragments prompt).map (fun piece => { delayMs := 120, bytes := piece ++ "\n" })

/-- External world of one `/internal/rag/query/stream` request:
`pineconeKey`/`openaiKey` as in `Env`, and `queryResult` the outcome of the
retrieval-plus-generation calls (`index.query`, `embed_query`,
`chain.astream`) when both clients are present — `.ok pieces` is the list of
generated text chunks, `.error m` an exception with message `m`. -/
structure QueryEnv where
  pineconeKey : Bool
  openaiKey : Bool
  queryResult : Except String (List String)

/-- The retrieval-or-generation path inside `token_stream`:
`retrieve_context` first raises `RuntimeError("vector or embedding client
missing")` when `get_pinecone()` is `None` or `OPENAI_API_KEY` is empty;
otherwise the external calls decide the outcome. -/
def rag_attempt (qenv : QueryEnv) : Except String (List String) :=
  if !(qenv.pineconeKey && qenv.openaiKey) then
    .error "vector or embedding client missing"
  else
    qenv.queryResult

/-- The `token_stream` generator of `rag_stream`: on success each generated
chunk is yielded immediately (no sleep) with a trailing newline; on any
exception the generator falls back to the canned fragments, 120 ms apart,
surfacing no error to the caller. -/
def token_stream (qenv : QueryEnv) (prompt : String) : List StreamEvent :=
  match rag_attempt qenv with
  | .ok pieces => pieces.map (fun c => { delayMs := 0, bytes := c ++ "\n" })
  | .error _ => fallback_stream prompt

/-- The `rag_stream` handler's validation: `payload.get("prompt")` falsy
(absent, null or empty) raises 400 before any streaming; otherwise the
response streams `token_stream`. -/
def rag_stream (qenv : QueryEnv) (prompt : Option String) :
    Except HTTPError (List StreamEvent) :=
  match prompt with
  | none => .error { status_code := 400, detail := "prompt is required" }
  | some p =>
      if p = "" then .error { status_code := 400, detail := "prompt is required" }
      else .ok (token_stream qenv p)

/-- States of `DOCUMENTS` reachable by the service from startup: the empty
map, then any interleaving of `ingest` requests and `process_ingestion`
background tasks. -/
inductive Reachable : Docs → Prop where
  | init : Reachable []
  | stepIngest (p : IngestPayload) (now : Nat) {d : Docs} :
      Reachable d → Reachable (ingestDocs p now d)
  | stepProcess (env : Env) (i : String) {d : Docs} :
      Reachable d → Reachable (process_ingestion env d i).1

/-! Concrete fixtures used to witness the theorems below on closed inputs. -/

/-- A filesystem holding one text file whose only byte is undecodable. -/
def fsOneBad : String → Option FileData := fun p =>
  if p = "a.txt" then some { units := [.bad], pdfPages := none } else none

/-- A filesystem holding one text file reading "h", an undecodable byte, "i". -/
def fsMixed : String → Option FileData := fun p =>
  if p = "b.txt" then some { units := [.ch 'h', .bad, .ch 'i'], pdfPages := none } else none

/-- A filesystem holding one empty text file. -/
def fsEmpty : String → Option FileData := fun p =>
  if p = "empty.txt" then some { units := [], pdfPages := none } else none

/-- A filesystem with no files at all. -/
def fsNone : String → Option FileData := fun _ => none

/-- A filesystem holding one text file reading "hi". -/
def fsHi : String → Option FileData := fun p =>
  if p = "doc.txt" then some { units := [.ch 'h', .ch 'i'], pdfPages := none } else none

/-- Ingestion environment whose splitter yields no chunks (empty text). -/
def envNoChunks : Env :=
  { fs := fsEmpty, split := fun _ => [], embed := fun _ => []
  , openaiKey := true, pineconeKey := true, upsertFail := none }

/-- Ingestion environment over an empty filesystem (extraction fails). -/
def envNoFile : Env :=
  { fs := fsNone, split := fun t => [t], embed := fun _ => []
  , openaiKey := true, pineconeKey := true, upsertFail := none }

/-- Fully working ingestion environment: one chunk per text, stub embedding. -/
def envHappy : Env :=
  { fs := fsHi, split := fun t => [t], embed := fun _ => [1, 2]
  , openaiKey := true, pineconeKey := true, upsertFail := none }

/-- A status map holding one processing record for `empty.txt`. -/
def docsEmptyFile : Docs := [("d1", mkIngestRecord "d1" "c1" "empty.txt" none 0)]

/-- A status map holding one processing record for the absent `gone.txt`. -/
def docsGoneFile : Docs := [("d2", mkIngestRecord "d2" "c2" "gone.txt" none 0)]

/-- A status map holding one processing record for `doc.txt`. -/
def docsHi : Docs := [("d3", mkIngestRecord "d3" "c3" "doc.txt" none 0)]

/-- Query environment in which both leaf clients are absent, so the
retrieval-or-generation path raises. -/
def qenvDown : QueryEnv :=
  { pineconeKey := false, openaiKey := false, queryResult := .error "unused" }

/-- An ingest payload missing `storage_uri`. -/
def payloadNoUri : IngestPayload :=
  { document_id := some "d9", collection_id := some "c9"
  , storage_uri := none, title := some "T" }

/-- A complete ingest payload. -/
def payloadFull : IngestPayload :=
  { document_id := some "d1", collection_id := some "c1"
  , storage_uri := some "u1", title := none }

/-! ### Helper lemmas -/

theorem getDoc_setDoc_self : ∀ (docs : Docs) (i : String) (r : DocumentRecord),
    getDoc (setDoc docs i r) i = some r
  | [], i, r => by simp [setDoc, getDoc]
  | (j, s) :: rest, i, r => by
      by_cases h : j = i
      · simp [setDoc, getDoc, h]
      · simp [setDoc, getDoc, h, getDoc_setDoc_self rest i r]

theorem getDoc_setDoc_cases : ∀ (docs : Docs) (i : String) (r : DocumentRecord)
    (j : String) (r' : DocumentRecord),
    getDoc (setDoc docs i r) j = some r' → r' = r ∨ getDoc docs j = some r'
  | [], i, r, j, r' => by
      by_cases h : i = j
      · simp [setDoc, getDoc, h]
        exact fun hg => hg.symm
      · simp [setDoc, getDoc, h]
  | (k, s) :: rest, i, r, j, r' => by
      by_cases hk : k = i
      · subst hk
        by_cases hj : k = j
        · simp only [setDoc, if_pos rfl, getDoc, if_pos hj]
          exact fun hg => .inl (Option.some.inj hg).symm
        · simp only [setDoc, if_pos rfl, getDoc, if_neg hj]
          exact fun hg => .inr hg
      · by_cases hj : k = j
        · simp only [setDoc, if_neg hk, getDoc, if_pos hj]
          exact fun hg => .inr hg
        · simp only [setDoc, if_neg hk, getDoc, if_neg hj]
          exact getDoc_setDoc_cases rest i r j r'

theorem isPrefixOf_append_self : ∀ (l t : List Char), List.isPrefixOf l (l ++ t) = true
  | [], _ => by simp [List.isPrefixOf]
  | a :: as, t => by simp [List.isPrefixOf, isPrefixOf_append_self as t]

theorem substrAux_middle : ∀ (pre pat post : List Char),
    substrAux pat (pre ++ (pat ++ post)) = true
  | [], [], post => by cases post <;> simp [substrAux, List.isPrefixOf]
  | [], a :: as, post => by simp [substrAux, isPrefixOf_append_self (a :: as) post]
  | c :: pre, pat, post => by simp [substrAux, substrAux_middle pre pat post]

theorem strContains_of_concat (a mid b : String) :
    strContains (a ++ mid ++ b) mid = true := by
  have h : (a ++ mid ++ b).data = a.data ++ (mid.data ++ b.data) := by
    simp [String.data_append]
  simp [strContains, h, substrAux_middle]

/-! ### Claim theorems -/

/-- C10: calling `process_ingestion` with a `document_id` that is not a key of
the status map returns normally without raising and leaves the status map
and every existing record unchanged (the function hits the early
`if not record: return`). -/
theorem C10_absent_id_noop (env : Env) (docs : Docs) (document_id : String)
    (h : getDoc docs document_id = none) :
    process_ingestion env docs document_id = (docs, none) := by
  simp [process_ingestion, h]

theorem C10_absent_id_noop_witness :
    getDoc docsHi "nope" = none ∧ process_ingestion envHappy docsHi "nope" = (docsHi, none) :=
  ⟨by decide, C10_absent_id_noop envHappy docsHi "nope" (by decide)⟩

/-- C8: for every input path that does not exist on the filesystem,
`extract_text` fails with the not-found error `"file not found: {path}"`,
and in an ingestion run this exception is caught and recorded as the
record's `"error"` status with that message as the note. -/
theorem C8_missing_file_error (env : Env) (docs : Docs) (document_id : String)
    (r : DocumentRecord) (hfs : env.fs r.storage_uri = none)
    (hr : getDoc docs document_id = some r) :
    extract_text env.fs r.storage_uri = .error ("file not found: " ++ r.storage_uri) ∧
    getDoc (process_ingestion env docs document_id).1 document_id =
      some { r with status := "error", note := some ("file not found: " ++ r.storage_uri) } ∧
    (process_ingestion env docs document_id).2 = none := by
  have hx : extract_text env.fs r.storage_uri = .error ("file not found: " ++ r.storage_uri) := by
    simp [extract_text, hfs]
  have hsteps : ingestionSteps env r = .error ("file not found: " ++ r.storage_uri) := by
    simp [ingestionSteps, hx]
  refine ⟨hx, ?_, ?_⟩ <;> simp [process_ingestion, hr, hsteps, getDoc_setDoc_self]

theorem C8_missing_file_error_witness :
    envNoFile.fs "gone.txt" = none ∧
    getDoc docsGoneFile "d2" = some (mkIngestRecord "d2" "c2" "gone.txt" none 0) ∧
    (extract_text envNoFile.fs "gone.txt" = .error "file not found: gone.txt" ∧
     getDoc (process_ingestion envNoFile docsGoneFile "d2").1 "d2" =
       some { mkIngestRecord "d2" "c2" "gone.txt" none 0 with
                status := "error", note := some "file not found: gone.txt" } ∧
     (process_ingestion envNoFile docsGoneFile "d2").2 = none) :=
  ⟨by decide, by decide,
   C8_missing_file_error envNoFile docsGoneFile "d2"
     (mkIngestRecord "d2" "c2" "gone.txt" none 0) (by decide) (by decide)⟩

/-- C4: the service-token gate.  When `SERVICE_TOKEN` is configured
non-empty, a request to a path under `/internal/` is rejected with the 401
exception unless the `x-service-token` header equals the token, and passes
when it does; when `SERVICE_TOKEN` is empty (or unset, which yields the
empty default), every request passes the gate; requests to paths not under
`/internal/` are never rejected by the gate. -/
theorem C4_token_gate (tok path : String) (header : Option String) :
    (tok ≠ "" → pyStartsWith "/internal/" path = true →
       (header ≠ some tok →
          verify_service_token tok path header =
            some { status_code := 401, detail := "unauthorized" }) ∧
       (header = some tok → verify_service_token tok path header = none)) ∧
    (tok = "" → verify_service_token tok path header = none) ∧
    (pyStartsWith "/internal/" path = false → verify_service_token tok path header = none) := by
  refine ⟨fun htok hpath => ⟨fun hne => ?_, fun heq => ?_⟩, fun htok => ?_, fun hpath => ?_⟩
  · simp [verify_service_token, hpath, htok, hne]
  · simp [verify_service_token, hpath, htok, heq]
  · simp [verify_service_token, htok]
  · simp [verify_service_token, hpath]

theorem C4_token_gate_witness :
    ("secret" ≠ "" ∧ pyStartsWith "/internal/" "/internal/ingest" = true ∧
       (none : Option String) ≠ some "secret" ∧
       verify_service_token "secret" "/internal/ingest" none =
         some { status_code := 401, detail := "unauthorized" }) ∧
    verify_service_token "" "/internal/ingest" none = none ∧
    (pyStartsWith "/internal/" "/health" = false ∧
       verify_service_token "secret" "/health" (some "wrong") = none) :=
  ⟨⟨by decide, by decide, by decide,
    ((C4_token_gate "secret" "/internal/ingest" none).1 (by decide) (by decide)).1 (by decide)⟩,
   (C4_token_gate "" "/internal/ingest" none).2.1 rfl,
   ⟨by decide, (C4_token_gate "secret" "/health" (some "wrong")).2.2 (by decide)⟩⟩

/-- C5: for every ingest payload missing at least one of the required fields
`document_id`, `collection_id`, `storage_uri`, the handler raises the 400
validation error before the record is built, so the status map is unchanged
and no background task is scheduled. -/
theorem C5_missing_fields_400 (p : IngestPayload) (now : Nat) (docs : Docs)
    (h : p.document_id = none ∨ p.collection_id = none ∨ p.storage_uri = none) :
    ingest p now docs = .error { status_code := 400, detail := "missing required fields" } ∧
    ingestDocs p now docs = docs ∧
    ingestTask p now docs = none := by
  rcases p with ⟨pd, pc, ps, pt⟩
  have he : ingest ⟨pd, pc, ps, pt⟩ now docs =
      .error { status_code := 400, detail := "missing required fields" } := by
    rcases h with h | h | h <;> cases pd <;> cases pc <;> cases ps <;>
      simp_all [ingest]
  exact ⟨he, by simp [ingestDocs, he], by simp [ingestTask, he]⟩

theorem C5_missing_fields_400_witness :
    (payloadNoUri.document_id = none ∨ payloadNoUri.collection_id = none ∨
       payloadNoUri.storage_uri = none) ∧
    (ingest payloadNoUri 0 docsHi =
       .error { status_code := 400, detail := "missing required fields" } ∧
     ingestDocs payloadNoUri 0 docsHi = docsHi ∧
     ingestTask payloadNoUri 0 docsHi = none) :=
  ⟨by decide, C5_missing_fields_400 payloadNoUri 0 docsHi (by decide)⟩

/-- C1: in every ingestion run where extraction succeeds but yields no
chunks (e.g. empty extracted text), `process_ingestion` sets the record to
status `"error"` with a note containing `"no text extracted"`; it never
reaches `"ready"` and performs no upsert. -/
theorem C1_no_chunks_error (env : Env) (docs : Docs) (document_id : String)
    (r : DocumentRecord) (t : String)
    (hr : getDoc docs document_id = some r)
    (hx : extract_text env.fs r.storage_uri = .ok t)
    (hc : env.split t = []) :
    (process_ingestion env docs document_id).2 = none ∧
    ∃ r', getDoc (process_ingestion env docs document_id).1 document_id = some r' ∧
      r'.status = "error" ∧ r'.status ≠ "ready" ∧
      ∃ m, r'.note = some m ∧ strContains m "no text extracted" = true := by
  have hsteps : ingestionSteps env r = .error "no text extracted" := by
    simp [ingestionSteps, hx, hc]
  refine ⟨by simp [process_ingestion, hr, hsteps], ?_⟩
  refine ⟨{ r with status := "error", note := some "no text extracted" }, ?_, rfl, ?_, ?_⟩
  · simp [process_ingestion, hr, hsteps, getDoc_setDoc_self]
  · simp
  · exact ⟨"no text extracted", rfl, by decide⟩

theorem C1_no_chunks_error_witness :
    getDoc docsEmptyFile "d1" = some (mkIngestRecord "d1" "c1" "empty.txt" none 0) ∧
    extract_text envNoChunks.fs "empty.txt" = .ok "" ∧
    envNoChunks.split "" = [] ∧
    ((process_ingestion envNoChunks docsEmptyFile "d1").2 = none ∧
     ∃ r', getDoc (process_ingestion envNoChunks docsEmptyFile "d1").1 "d1" = some r' ∧
       r'.status = "error" ∧ r'.status ≠ "ready" ∧
       ∃ m, r'.note = some m ∧ strContains m "no text extracted" = true) :=
  ⟨by decide, by decide, rfl,
   C1_no_chunks_error envNoChunks docsEmptyFile "d1"
     (mkIngestRecord "d1" "c1" "empty.txt" none 0) "" (by decide) (by decide) rfl⟩

/-- C2: for every `document_id` present in the status map, a completed
`process_ingestion` run leaves the record terminal: if any stage of the
pipeline raises (modelled by `ingestionSteps` returning `.error msg`), the
status becomes `"error"` and the note equals the exception's message; if all
stages succeed, the status becomes `"ready"` (with the chunk-count note). -/
theorem C2_terminal_state (env : Env) (docs : Docs) (document_id : String)
    (r : DocumentRecord) (hr : getDoc docs document_id = some r) :
    ∃ r', getDoc (process_ingestion env docs document_id).1 document_id = some r' ∧
      ((∃ msg, ingestionSteps env r = .error msg ∧
          r'.status = "error" ∧ r'.note = some msg) ∨
       (∃ chunks call, ingestionSteps env r = .ok (chunks, call) ∧
          r'.status = "ready" ∧
          r'.note = some ("Upserted " ++ toString chunks.length ++ " chunks to Pinecone."))) := by
  cases hsteps : ingestionSteps env r with
  | error msg =>
      refine ⟨{ r with status := "error", note := some msg }, ?_, .inl ⟨msg, rfl, rfl, rfl⟩⟩
      simp [process_ingestion, hr, hsteps, getDoc_setDoc_self]
  | ok pr =>
      obtain ⟨chunks, call⟩ := pr
      refine ⟨{ r with status := "ready", note := some ("Upserted " ++ toString chunks.length ++ " chunks to Pinecone.") },
              ?_, .inr ⟨chunks, call, rfl, rfl, rfl⟩⟩
      simp [process_ingestion, hr, hsteps, getDoc_setDoc_self]

theorem C2_terminal_state_witness :
    getDoc docsGoneFile "d2" = some (mkIngestRecord "d2" "c2" "gone.txt" none 0) ∧
    (∃ r', getDoc (process_ingestion envNoFile docsGoneFile "d2").1 "d2" = some r' ∧
      ((∃ msg, ingestionSteps envNoFile (mkIngestRecord "d2" "c2" "gone.txt" none 0) =
            .error msg ∧
          r'.status = "error" ∧ r'.note = some msg) ∨
       (∃ chunks call,
          ingestionSteps envNoFile (mkIngestRecord "d2" "c2" "gone.txt" none 0) =
            .ok (chunks, call) ∧
          r'.status = "ready" ∧
          r'.note = some ("Upserted " ++ toString chunks.length ++ " chunks to Pinecone.")))) :=
  ⟨by decide,
   C2_terminal_state envNoFile docsGoneFile "d2"
     (mkIngestRecord "d2" "c2" "gone.txt" none 0) (by decide)⟩

/-- C3 counterexample: a text file whose single byte is undecodable.  The
source opens text files with `errors="ignore"`, so the byte is dropped and
`extract_text` returns `""`: the "replaced" position is NOT represented in
the result, contradicting the claim's reading (the spec-faithful
`extract_text_spec_replace` would return the one-character string U+FFFD). -/
theorem C3_counterexample :
    extract_text fsOneBad "a.txt" = .ok "" ∧
    extract_text_spec_replace fsOneBad "a.txt" = .ok (String.mk [Char.ofNat 0xFFFD]) ∧
    (Except.ok "" : Except String String) ≠ .ok (String.mk [Char.ofNat 0xFFFD]) := by
  refine ⟨by decide, by decide, by decide⟩

/-- C3 (amended): for every existing non-PDF input path, `extract_text`
reads the file as UTF-8 text and returns its full decodable content in
order, with undecodable bytes silently DROPPED (`errors="ignore"`), never
failing on undecodable input. -/
theorem C3_text_read_drops_bad (fs : String → Option FileData) (path : String)
    (fd : FileData) (hfs : fs path = some fd)
    (hpdf : lowerStr (pySuffix path) ≠ ".pdf") :
    extract_text fs path =
      .ok (String.mk (fd.units.filterMap
        (fun u => match u with | .ch c => some c | .bad => none))) := by
  simp [extract_text, hfs, hpdf, decodeIgnore]

theorem C3_text_read_drops_bad_witness :
    fsMixed "b.txt" = some { units := [.ch 'h', .bad, .ch 'i'], pdfPages := none } ∧
    lowerStr (pySuffix "b.txt") ≠ ".pdf" ∧
    extract_text fsMixed "b.txt" =
      .ok (String.mk (([.ch 'h', .bad, .ch 'i'] : List DecodeUnit).filterMap
        (fun u => match u with | .ch c => some c | .bad => none))) :=
  ⟨by decide, by decide,
   C3_text_read_drops_bad fsMixed "b.txt"
     { units := [.ch 'h', .bad, .ch 'i'], pdfPages := none } (by decide) (by decide)⟩

theorem upsertVectors_length (embed : String → List Int) (cid did : String) :
    ∀ (k : Nat) (chunks : List String),
    (upsertVectors embed cid did k chunks).length = chunks.length
  | _, [] => rfl
  | k, _ :: rest => by
      simp [upsertVectors, upsertVectors_length embed cid did (k + 1) rest]

theorem upsertVectors_getElem? (embed : String → List Int) (cid did : String) :
    ∀ (chunks : List String) (k i : Nat),
    (upsertVectors embed cid did k chunks)[i]? =
      (chunks[i]?).map (fun c =>
        ({ id := did ++ "-chunk-" ++ toString (k + i)
         , values := embed c
         , metadata := { collection_id := cid, document_id := did
                       , chunk_id := "chunk-" ++ toString (k + i), text := c } } : VectorRecord))
  | [], k, i => by simp [upsertVectors]
  | c :: rest, k, 0 => by simp [upsertVectors]
  | c :: rest, k, i + 1 => by
      have ih := upsertVectors_getElem? embed cid did rest (k + 1) i
      rw [show k + 1 + i = k + (i + 1) from by omega] at ih
      simpa [upsertVectors] using ih

/-- C6: on every successful ingestion the vectors written to the external
index are exactly one per chunk, in chunk order: the i-th vector has id
`"{document_id}-chunk-{i}"`, metadata `{collection_id, document_id,
chunk_id = "chunk-{i}", text = c_i}` with the chunk's embedding as values,
all written to namespace `collection_id`; and the record's note becomes the
human-readable count of the chunks upserted. -/
theorem C6_upsert_exact (env : Env) (docs : Docs) (document_id : String)
    (r : DocumentRecord) (t : String)
    (hr : getDoc docs document_id = some r)
    (hx : extract_text env.fs r.storage_uri = .ok t)
    (hok : env.openaiKey = true) (hpk : env.pineconeKey = true)
    (hup : env.upsertFail = none)
    (hch : env.split t ≠ []) :
    ∃ call : UpsertCall, (process_ingestion env docs document_id).2 = some call ∧
      call.ns = r.collection_id ∧
      call.vectors.length = (env.split t).length ∧
      (∀ (i : Nat) (c : String), (env.split t)[i]? = some c →
        call.vectors[i]? = some
          { id := r.document_id ++ "-chunk-" ++ toString i
          , values := env.embed c
          , metadata :=
              { collection_id := r.collection_id
              , document_id := r.document_id
              , chunk_id := "chunk-" ++ toString i
              , text := c } }) ∧
      (∃ r' : DocumentRecord,
        getDoc (process_ingestion env docs document_id).1 document_id = some r' ∧
        r'.status = "ready" ∧
        r'.note = some ("Upserted " ++ toString (env.split t).length ++
          " chunks to Pinecone.")) := by
  have hsteps : ingestionSteps env r =
      .ok (env.split t, upsert_to_pinecone env.embed (env.split t)
        r.collection_id r.document_id) := by
    simp [ingestionSteps, hx, hch, hok, hpk, hup]
  refine ⟨upsert_to_pinecone env.embed (env.split t) r.collection_id r.document_id,
    ?_, rfl, ?_, ?_, ?_⟩
  · simp [process_ingestion, hr, hsteps]
  · simpa [upsert_to_pinecone] using
      upsertVectors_length env.embed r.collection_id r.document_id 0 (env.split t)
  · intro i c hic
    have h := upsertVectors_getElem? env.embed r.collection_id r.document_id (env.split t) 0 i
    rw [hic] at h
    simpa [upsert_to_pinecone] using h
  · refine ⟨{ r with status := "ready", note := some ("Upserted " ++ toString (env.split t).length ++ " chunks to Pinecone.") }, ?_, rfl, rfl⟩
    simp [process_ingestion, hr, hsteps, getDoc_setDoc_self]

theorem C6_upsert_exact_witness :
    getDoc docsHi "d3" = some (mkIngestRecord "d3" "c3" "doc.txt" none 0) ∧
    extract_text envHappy.fs "doc.txt" = .ok "hi" ∧
    envHappy.openaiKey = true ∧ envHappy.pineconeKey = true ∧
    envHappy.upsertFail = none ∧ envHappy.split "hi" ≠ [] ∧
    (∃ call : UpsertCall, (process_ingestion envHappy docsHi "d3").2 = some call ∧
      call.ns = (mkIngestRecord "d3" "c3" "doc.txt" none 0).collection_id ∧
      call.vectors.length = (envHappy.split "hi").length ∧
      (∀ (i : Nat) (c : String), (envHappy.split "hi")[i]? = some c →
        call.vectors[i]? = some
          { id := (mkIngestRecord "d3" "c3" "doc.txt" none 0).document_id ++
              "-chunk-" ++ toString i
          , values := envHappy.embed c
          , metadata :=
              { collection_id := (mkIngestRecord "d3" "c3" "doc.txt" none 0).collection_id
              , document_id := (mkIngestRecord "d3" "c3" "doc.txt" none 0).document_id
              , chunk_id := "chunk-" ++ toString i
              , text := c } }) ∧
      (∃ r' : DocumentRecord,
        getDoc (process_ingestion envHappy docsHi "d3").1 "d3" = some r' ∧
        r'.status = "ready" ∧
        r'.note = some ("Upserted " ++ toString (envHappy.split "hi").length ++
          " chunks to Pinecone."))) :=
  ⟨by decide, by decide, rfl, rfl, rfl, by decide,
   C6_upsert_exact envHappy docsHi "d3" (mkIngestRecord "d3" "c3" "doc.txt" none 0) "hi"
     (by decide) (by decide) rfl rfl rfl (by decide)⟩

theorem strAppend_assoc (u v w : String) : (u ++ v) ++ w = u ++ (v ++ w) := by
  apply String.ext
  simp [String.data_append]

/-- C7 counterexample: the claim's "exactly one of which contains the
original prompt text verbatim" fails for prompt `"a"`: the query path raises
(both leaf clients absent), the stream is the canned fallback, and FOUR of
its fragments contain the substring `"a"` ("an AuroraMind", "back",
`Prompt: "a"`, "replace"), not exactly one. -/
theorem C7_counterexample :
    rag_stream qenvDown (some "a") = .ok (fallback_stream "a") ∧
    (fallback_stream "a").countP (fun e => strContains e.bytes "a") = 4 ∧
    (4 : Nat) ≠ 1 := by
  refine ⟨by decide, by decide, by decide⟩

/-- C7 (amended): for every query whose retrieval-or-generation path raises
an exception (including when the vector or embedding dependencies are
unavailable), the response stream still completes successfully with the
fixed fallback fragments, each preceded by the fixed 120 ms delay (hence
consecutive fragments ≥ 120 ms apart) and newline-terminated, and AT LEAST
ONE of which — the third, `Prompt: "{prompt}". ` — contains the original
prompt text verbatim; no error is surfaced to the caller. -/
theorem C7_fallback_on_failure (qenv : QueryEnv) (prompt msg : String)
    (hp : prompt ≠ "")
    (hfail : rag_attempt qenv = .error msg) :
    rag_stream qenv (some prompt) = .ok (fallback_stream prompt) ∧
    token_stream qenv prompt = fallback_stream prompt ∧
    (∀ e ∈ token_stream qenv prompt, e.delayMs = 120 ∧ 120 ≤ e.delayMs ∧
       ∃ u, e.bytes = u ++ "\n") ∧
    (token_stream qenv prompt)[2]? =
      some { delayMs := 120, bytes := ("Prompt: \"" ++ prompt ++ "\". ") ++ "\n" } ∧
    (∃ e ∈ token_stream qenv prompt, strContains e.bytes prompt = true) := by
  have hts : token_stream qenv prompt = fallback_stream prompt := by
    simp [token_stream, hfail]
  refine ⟨by simp [rag_stream, hp, hts], hts, ?_, ?_, ?_⟩
  · intro e he
    rw [hts, fallback_stream] at he
    simp only [List.mem_map] at he
    obtain ⟨piece, hmem, rfl⟩ := he
    exact ⟨rfl, le_refl _, ⟨piece, rfl⟩⟩
  · rw [hts]
    rfl
  · refine ⟨{ delayMs := 120, bytes := ("Prompt: \"" ++ prompt ++ "\". ") ++ "\n" }, ?_, ?_⟩
    · rw [hts, fallback_stream]
      exact List.mem_map.mpr ⟨"Prompt: \"" ++ prompt ++ "\". ", by simp [synthetic_fragments], rfl⟩
    · have hsh : ("Prompt: \"" ++ prompt ++ "\". ") ++ "\n" =
          ("Prompt: \"" ++ prompt) ++ ("\". " ++ "\n") := by
        rw [strAppend_assoc]
      show strContains (("Prompt: \"" ++ prompt ++ "\". ") ++ "\n") prompt = true
      rw [hsh]
      exact strContains_of_concat "Prompt: \"" prompt ("\". " ++ "\n")

theorem C7_fallback_on_failure_witness :
    ("hello" : String) ≠ "" ∧
    rag_attempt qenvDown = .error "vector or embedding client missing" ∧
    (rag_stream qenvDown (some "hello") = .ok (fallback_stream "hello") ∧
     token_stream qenvDown "hello" = fallback_stream "hello" ∧
     (∀ e ∈ token_stream qenvDown "hello", e.delayMs = 120 ∧ 120 ≤ e.delayMs ∧
        ∃ u, e.bytes = u ++ "\n") ∧
     (token_stream qenvDown "hello")[2]? =
       some { delayMs := 120, bytes := ("Prompt: \"" ++ "hello" ++ "\". ") ++ "\n" } ∧
     (∃ e ∈ token_stream qenvDown "hello", strContains e.bytes "hello" = true)) :=
  ⟨by decide, by decide,
   C7_fallback_on_failure qenvDown "hello" "vector or embedding client missing"
     (by decide) (by decide)⟩

theorem ingestDocs_cases (p : IngestPayload) (now : Nat) (d : Docs) :
    ingestDocs p now d = d ∨
    ∃ did cid uri, p.document_id = some did ∧ p.collection_id = some cid ∧
      p.storage_uri = some uri ∧
      ingestDocs p now d = setDoc d did (mkIngestRecord did cid uri p.title now) := by
  rcases p with ⟨pd, pc, ps, pt⟩
  cases pd <;> cases pc <;> cases ps <;> simp [ingestDocs, ingest]

theorem reachable_status_aux (d : Docs) (h : Reachable d) :
    ∀ (i : String) (r : DocumentRecord), getDoc d i = some r →
      r.status = "processing" ∨ r.status = "ready" ∨ r.status = "error" := by
  induction h with
  | init =>
      intro i r hg
      simp [getDoc] at hg
  | stepIngest p now h ih =>
      intro i r hg
      rcases ingestDocs_cases p now _ with heq | ⟨did, cid, uri, _, _, _, heq⟩ <;>
        rw [heq] at hg
      · exact ih i r hg
      · rcases getDoc_setDoc_cases _ _ _ _ _ hg with rfl | hgd
        · exact .inl rfl
        · exact ih i r hgd
  | stepProcess env j h ih =>
      intro i r hg
      rename_i d'
      cases hj : getDoc d' j with
      | none =>
          rw [show (process_ingestion env d' j).1 = d' by simp [process_ingestion, hj]] at hg
          exact ih i r hg
      | some rec =>
          cases hst : ingestionSteps env rec with
          | error msg =>
              rw [show (process_ingestion env d' j).1 =
                  setDoc d' j { rec with status := "error", note := some msg } by
                simp [process_ingestion, hj, hst]] at hg
              rcases getDoc_setDoc_cases _ _ _ _ _ hg with rfl | hgd
              · exact .inr (.inr rfl)
              · exact ih i r hgd
          | ok pr =>
              obtain ⟨chunks, call⟩ := pr
              have hred : (process_ingestion env d' j).1 = setDoc d' j { rec with status := "ready", note := some ("Upserted " ++ toString chunks.length ++ " chunks to Pinecone.") } := by
                simp [process_ingestion, hj, hst]
              rw [hred] at hg
              rcases getDoc_setDoc_cases _ _ _ _ _ hg with rfl | hgd
              · exact .inr (.inl rfl)
              · exact ih i r hgd

/-- C9: every record observable in a reachable status map was created with
status `"processing"` (by the ingest handler) and is only ever updated to
`"ready"` or `"error"` (by the background task); although `"queued"` is the
dataclass default, no record in the map is ever observable with status
`"queued"`. -/
theorem C9_no_queued_status (d : Docs) (h : Reachable d) (i : String)
    (r : DocumentRecord) (hg : getDoc d i = some r) :
    r.status ≠ "queued" ∧
      (r.status = "processing" ∨ r.status = "ready" ∨ r.status = "error") := by
  have hs := reachable_status_aux d h i r hg
  refine ⟨?_, hs⟩
  rcases hs with h1 | h1 | h1 <;> rw [h1] <;> decide

theorem C9_no_queued_status_witness :
    getDoc (ingestDocs payloadFull 0 []) "d1" =
      some (mkIngestRecord "d1" "c1" "u1" none 0) ∧
    ((mkIngestRecord "d1" "c1" "u1" none 0).status ≠ "queued" ∧
     ((mkIngestRecord "d1" "c1" "u1" none 0).status = "processing" ∨
      (mkIngestRecord "d1" "c1" "u1" none 0).status = "ready" ∨
      (mkIngestRecord "d1" "c1" "u1" none 0).status = "error")) :=
  ⟨by decide,
   C9_no_queued_status (ingestDocs payloadFull 0 [])
     (Reachable.stepIngest payloadFull 0 Reachable.init) "d1"
     (mkIngestRecord "d1" "c1" "u1" none 0) (by decide)⟩
